import Mathlib

/-
Verification of the GeoTruth narrative engine's export / narration core.

The Python sources (src/backend/services/api/app/api/export.py,
src/backend/services/api/app/api/narrate.py, src/reference/api/app/api/enrich.py,
src/reference/api/app/api/map_match.py) are shallowly embedded below.
Python strings are modelled as lists of characters, Python ints as Int,
Python floats as exact rationals (all numbers arising here are produced by
arithmetic on small integers and division by 2.5 / a word-per-minute rate,
where IEEE doubles and exact rationals agree on every comparison and floor
performed by the code), and raising an exception as the error side of
Except.
-/

/-- Python strings, modelled as lists of characters. -/
abbrev Str := List Char

deriving instance DecidableEq for Except

/-- The two Python exception classes the embedded code can raise. -/
inductive PyError where
  | valueError
  | indexError
deriving DecidableEq

/-- An error surfaced by an endpoint: either a deliberate HTTPException
with a status code and detail message, or an uncaught Python exception. -/
inductive ApiError where
  | http (status : Nat) (detail : Str)
  | py (e : PyError)
deriving DecidableEq

/-- Python list indexing `l[i]`: raises IndexError past the end. -/
def listIdx {α : Type} (l : List α) (i : Nat) : Except PyError α :=
  match l.get? i with
  | some x => .ok x
  | none => .error .indexError

/-- The whitespace characters of Python's str.split() with no argument
(space, tab, newline, carriage return, vertical tab, form feed). -/
def isSpaceCh (c : Char) : Bool :=
  c = ' ' || c = '\t' || c = '\n' || c = '\r' || c.toNat = 11 || c.toNat = 12

/-- Python s.split(sep) for a single-character separator: every occurrence
splits, empty fields are kept, the empty string yields [""]. -/
def pySplit (sep : Char) : Str → List Str
  | [] => [[]]
  | c :: cs =>
    if c = sep then [] :: pySplit sep cs
    else
      match pySplit sep cs with
      | [] => [[c]]
      | f :: t => (c :: f) :: t

/-- Python s.count(c) for a single character. -/
def countChar (ch : Char) (s : Str) : Nat := (s.filter (fun c => c = ch)).length

/-- Python "\n".join(lines). -/
def joinNL (lines : List Str) : Str := List.intercalate ("\n".toList) lines

/-- Value of a digit character. -/
def digitVal (c : Char) : Nat := c.toNat - 48

/-- Accumulating decimal value of a digit string. -/
def fieldVal (s : Str) : Nat := s.foldl (fun a c => a * 10 + digitVal c) 0

/-- Parse a non-empty all-digit string; none models a ValueError. -/
def parseDigits (s : Str) : Option Nat :=
  if !s.isEmpty && s.all Char.isDigit then some (fieldVal s) else none

/-- Strip leading and trailing whitespace (Python int() ignores it). -/
def trimWs (s : Str) : Str :=
  ((s.dropWhile isSpaceCh).reverse.dropWhile isSpaceCh).reverse

/-- Models CPython int() applied to a string: optional surrounding
whitespace, an optional sign, then decimal digits.  Digit-grouping
underscores and non-ASCII digits are not modelled; none models the
ValueError raised on a malformed literal. -/
def int_of_str (s : Str) : Option Int :=
  match trimWs s with
  | [] => none
  | c :: rest =>
    if c = '-' then (parseDigits rest).map (fun n => -(n : Int))
    else if c = '+' then (parseDigits rest).map (fun n => (n : Int))
    else (parseDigits (c :: rest)).map (fun n => (n : Int))

/-- int(field) inside the embedded code: a failed parse is a ValueError. -/
def intField (s : Str) : Except PyError Int :=
  match int_of_str s with
  | some z => .ok z
  | none => .error .valueError

/-- Fuel-driven helper for decRepr (structural recursion so that concrete
values reduce inside the kernel); the fuel is an upper bound on the number
to print and is never exhausted when decRepr supplies it. -/
def decReprAux : Nat → Nat → Str
  | 0, _ => []
  | f + 1, n =>
    if n < 10 then [Nat.digitChar n]
    else decReprAux f (n / 10) ++ [Nat.digitChar (n % 10)]

/-- Decimal digit string of a natural number, as printed by Python's
str()/format of a non-negative integer. -/
def decRepr (n : Nat) : Str := decReprAux (n + 1) n

/-- Python str() of an int (sign included). -/
def intRepr (z : Int) : Str :=
  if z < 0 then '-' :: decRepr z.natAbs else decRepr z.toNat

/-- Zero padding to width 2: both the numeric 02d form and the string 0>2
form of the f-strings in export.py pad on the left with zeros. -/
def padZero2 (s : Str) : Str := List.replicate (2 - s.length) '0' ++ s

/-- f"{z:02d}". -/
def formatInt02 (z : Int) : Str := padZero2 (intRepr z)

/-- f"{n:02d}" for a natural number (spec-side convenience). -/
def pad2Nat (n : Nat) : Str := padZero2 (decRepr n)

/-- Python float floor division a // b, on exact rationals. -/
def pyFloorDiv (a b : ℚ) : ℚ := ((⌊a / b⌋ : ℤ) : ℚ)

/-- Python float modulo: a % b = a - b * (a // b). -/
def pyMod (a b : ℚ) : ℚ := a - b * pyFloorDiv a b

/-- Python int() truncation of a float (toward zero). -/
def int_of_float (q : ℚ) : Int := if 0 ≤ q then ⌊q⌋ else -⌊-q⌋

/-- Fuel-driven helper for pyReplace (structural recursion so that
concrete values reduce inside the kernel); the fuel bounds the string
length and is never exhausted when pyReplace supplies it. -/
def pyReplaceAux (pat repl : Str) : Nat → Str → Str
  | _, [] => []
  | 0, s => s
  | f + 1, c :: cs =>
    if pat.isPrefixOf (c :: cs) then
      repl ++ pyReplaceAux pat repl f (cs.drop (pat.length - 1))
    else c :: pyReplaceAux pat repl f cs

/-- Python s.replace(pat, repl) for a non-empty pattern: replaces each
leftmost non-overlapping occurrence.  (The degenerate empty pattern, which
Python treats specially, is never used by the embedded code.) -/
def pyReplace (pat repl s : Str) : Str := pyReplaceAux pat repl s.length s

/-- Whether pat occurs as a contiguous substring of s. -/
def hasSub (pat : Str) : Str → Bool
  | [] => pat.isEmpty
  | c :: cs => pat.isPrefixOf (c :: cs) || hasSub pat cs

/-- Chapter model from export.py (time_code, title, optional description). -/
structure Chapter where
  time_code : Str
  title : Str
  description : Option Str
deriving DecidableEq

/-- ScriptSegment model from export.py (time_code, narration). -/
structure ScriptSegment where
  time_code : Str
  narration : Str
deriving DecidableEq

/-- Request body of POST /export/chapters. -/
structure ExportChaptersRequest where
  chapters : List Chapter
  format : Str
  include_timestamps : Bool

/-- Response body of POST /export/chapters. -/
structure ExportChaptersResponse where
  format : Str
  content : Str
  filename : Str
deriving DecidableEq

/-- Request body of POST /export/script (reading_speed_wpm is validated by
the request model to lie in 100..250). -/
structure ExportScriptRequest where
  segments : List ScriptSegment
  format : Str
  reading_speed_wpm : Nat

/-- Response body of POST /export/script. -/
structure ExportScriptResponse where
  format : Str
  content : Str
  filename : Str
  estimated_duration_seconds : ℚ
deriving DecidableEq

/-- format_youtube_chapters from export.py. -/
def format_youtube_chapters (chapters : List Chapter) : Str :=
  joinNL ("Chapters:".toList ::
    (chapters.map (fun c =>
      [c.time_code ++ " ".toList ++ c.title] ++
      (match c.description with
       | some d => ["  ".toList ++ d]
       | none => []))).flatten)

/-- format_markdown_chapters from export.py. -/
def format_markdown_chapters (chapters : List Chapter) : Str :=
  joinNL ("# Video Chapters\n".toList ::
    (chapters.enum.map (fun p =>
      ["## ".toList ++ decRepr (p.1 + 1) ++ ". ".toList ++ p.2.title ++
         " (".toList ++ p.2.time_code ++ ")".toList] ++
      (match p.2.description with
       | some d => ["\n".toList ++ d ++ "\n".toList]
       | none => []) ++ [[]])).flatten)

/-- The lines format_srt_chapters appends for the chapter of 1-based index
i+1: the time code is split on ':'; with exactly two fields the start time
is "00:" plus the two fields zero padded plus ",000", otherwise the first
three fields are used (a missing field is an IndexError); the range line
appends to the start time an arrow and the start-time string with its last
four characters removed followed by "30,000". -/
def srtChapterLines (i : Nat) (chapter : Chapter) : Except PyError (List Str) := do
  let parts := pySplit ':' chapter.time_code
  let start_time ←
    if parts.length = 2 then do
      let p0 ← listIdx parts 0
      let p1 ← listIdx parts 1
      pure ("00:".toList ++ padZero2 p0 ++ ":".toList ++ padZero2 p1 ++ ",000".toList)
    else do
      let p0 ← listIdx parts 0
      let p1 ← listIdx parts 1
      let p2 ← listIdx parts 2
      pure (padZero2 p0 ++ ":".toList ++ padZero2 p1 ++ ":".toList ++ padZero2 p2 ++
        ",000".toList)
  pure ([decRepr (i + 1),
         start_time ++ " --> ".toList ++ start_time.take (start_time.length - 4) ++
           "30,000".toList,
         chapter.title] ++
        (match chapter.description with
         | some d => [d]
         | none => []) ++ [[]])

/-- format_srt_chapters from export.py. -/
def format_srt_chapters (chapters : List Chapter) : Except PyError Str := do
  let blocks ← chapters.enum.mapM (fun p => srtChapterLines p.1 p.2)
  pure (joinNL blocks.flatten)

/-- Models the stdlib json.dumps(..., indent=2) call of export_chapters'
json branch on the dumped chapter dicts.  String escaping is limited to
backslash, quote and the common control characters; no claim exercises
this branch. -/
def jsonEscape (s : Str) : Str :=
  s.flatMap (fun c =>
    if c = '\\' then "\\\\".toList
    else if c = '"' then "\\\"".toList
    else if c = '\n' then "\\n".toList
    else if c = '\t' then "\\t".toList
    else if c = '\r' then "\\r".toList
    else [c])

/-- One indented JSON object of the json.dumps model. -/
def jsonChapterObj (c : Chapter) : Str :=
  [' ', ' ', Char.ofNat 123, '\n'] ++
  "    \"time_code\": \"".toList ++ jsonEscape c.time_code ++ "\",\n".toList ++
  "    \"title\": \"".toList ++ jsonEscape c.title ++ "\",\n".toList ++
  "    \"description\": ".toList ++
  (match c.description with
   | some d => "\"".toList ++ jsonEscape d ++ "\"".toList
   | none => "null".toList) ++
  ['\n', ' ', ' ', Char.ofNat 125]

/-- The json branch of export_chapters. -/
def json_chapters (chapters : List Chapter) : Str :=
  "[\n".toList ++ List.intercalate (",\n".toList) (chapters.map jsonChapterObj) ++ "\n]".toList

/-- export_chapters endpoint from export.py: empty chapter lists are
rejected with HTTP 400 before any formatting, then the format string is
dispatched (youtube / markdown / srt, anything else being json). -/
def export_chapters (request : ExportChaptersRequest) :
    Except ApiError ExportChaptersResponse :=
  if request.chapters = [] then .error (.http 400 "No chapters provided".toList)
  else
    let cf : Except ApiError (Str × Str) :=
      if request.format = "youtube".toList then
        .ok (format_youtube_chapters request.chapters, "chapters.txt".toList)
      else if request.format = "markdown".toList then
        .ok (format_markdown_chapters request.chapters, "chapters.md".toList)
      else if request.format = "srt".toList then
        ((format_srt_chapters request.chapters).mapError ApiError.py).map
          (fun c => (c, "chapters.srt".toList))
      else
        .ok (json_chapters request.chapters, "chapters.json".toList)
    cf.map (fun p => ⟨request.format, p.1, p.2⟩)

/-- time_to_seconds from export.py: split on ':'; exactly two fields give
minutes*60+seconds, any other count takes the hours branch reading the
first three fields (left to right, so a missing field is an IndexError and
a non-integer field a ValueError). -/
def time_to_seconds (time_code : Str) : Except PyError Int :=
  let parts := pySplit ':' time_code
  if parts.length = 2 then do
    let p0 ← listIdx parts 0
    let a ← intField p0
    let p1 ← listIdx parts 1
    let b ← intField p1
    pure (a * 60 + b)
  else do
    let p0 ← listIdx parts 0
    let a ← intField p0
    let p1 ← listIdx parts 1
    let b ← intField p1
    let p2 ← listIdx parts 2
    let c ← intField p2
    pure (a * 3600 + b * 60 + c)

/-- len(narration.split()): count of maximal non-whitespace runs; the
boolean records whether the previous character belonged to a word. -/
def wcAux : Str → Bool → Nat
  | [], _ => 0
  | c :: cs, inWord =>
    if isSpaceCh c then wcAux cs false
    else (if inWord then 0 else 1) + wcAux cs true

/-- Word count of a narration text, as used by format_vtt and
export_script. -/
def wordCount (s : Str) : Nat := wcAux s false

/-- format_teleprompter from export.py. -/
def format_teleprompter (segments : List ScriptSegment) : Str :=
  joinNL ((segments.map (fun seg =>
    ["[".toList ++ seg.time_code ++ "]".toList, [], seg.narration, [],
     "---".toList, []])).flatten)

/-- The HH:MM:SS rendering of an elapsed-seconds value used for the end
time in format_vtt (the f-string of export.py lines 190-192, without its
literal ".000" suffix); this is also the spec's format_time_code. -/
def hms_render (es : ℚ) : Str :=
  formatInt02 (int_of_float (pyFloorDiv es 3600)) ++ ":".toList ++
  formatInt02 (int_of_float (pyFloorDiv (pyMod es 3600) 60)) ++ ":".toList ++
  formatInt02 (int_of_float (pyMod es 60))

/-- The lines format_vtt appends for the segment of 0-based index i: cue
number i+1, the time range line (start gets a "00:" prefix when it
contains exactly one colon, end is start seconds plus word_count/2.5
seconds), the narration, and a blank separator. -/
def vttCueLines (i : Nat) (segment : ScriptSegment) : Except PyError (List Str) := do
  let words := wordCount segment.narration
  let duration_seconds : ℚ := (words : ℚ) / (5 / 2)
  let start_seconds ← time_to_seconds segment.time_code
  let end_seconds : ℚ := (start_seconds : ℚ) + duration_seconds
  let end_time := hms_render end_seconds ++ ".000".toList
  let start_time :=
    (if countChar ':' segment.time_code = 1 then "00:".toList ++ segment.time_code
     else segment.time_code) ++ ".000".toList
  pure [decRepr (i + 1), start_time ++ " --> ".toList ++ end_time, segment.narration, []]

/-- format_vtt from export.py. -/
def format_vtt (segments : List ScriptSegment) : Except PyError Str := do
  let blocks ← segments.enum.mapM (fun p => vttCueLines p.1 p.2)
  pure (joinNL ("WEBVTT".toList :: ([] : Str) :: blocks.flatten))

/-- The inline markdown branch of export_script. -/
def format_markdown_script (segments : List ScriptSegment) : Str :=
  joinNL ("# Narration Script\n".toList ::
    (segments.map (fun seg =>
      ["## [".toList ++ seg.time_code ++ "]".toList,
       "\n".toList ++ seg.narration ++ "\n".toList])).flatten)

/-- export_script endpoint from export.py: empty segment lists are
rejected with HTTP 400 before any formatting; the overall estimated
duration is (total word count / reading_speed_wpm) * 60 seconds; the srt
branch re-uses format_vtt and then replaces every occurrence of
"WEBVTT\n\n" with the empty string and every '.' with ','. -/
def export_script (request : ExportScriptRequest) :
    Except ApiError ExportScriptResponse :=
  if request.segments = [] then .error (.http 400 "No script segments provided".toList)
  else
    let total_words := (request.segments.map (fun s => wordCount s.narration)).sum
    let estimated_duration : ℚ :=
      ((total_words : ℚ) / (request.reading_speed_wpm : ℚ)) * 60
    let cf : Except ApiError (Str × Str) :=
      if request.format = "teleprompter".toList then
        .ok (format_teleprompter request.segments, "script_teleprompter.txt".toList)
      else if request.format = "vtt".toList then
        ((format_vtt request.segments).mapError ApiError.py).map
          (fun c => (c, "script.vtt".toList))
      else if request.format = "srt".toList then
        ((format_vtt request.segments).mapError ApiError.py).map
          (fun c => (pyReplace ".".toList ",".toList (pyReplace "WEBVTT\n\n".toList [] c),
            "script.srt".toList))
      else
        .ok (format_markdown_script request.segments, "script.md".toList)
    cf.map (fun p => ⟨request.format, p.1, p.2, estimated_duration⟩)

/-- Narration result metadata (the meta dict of narrate.py responses). -/
structure NarrateMeta where
  engine : Str
  reason : Option Str
deriving DecidableEq

/-- NarrateResponse, modelled from the spec's NarrationResult (the models
module imported by narrate.py is absent from src/): chapters, an optional
script payload, and meta. -/
structure NarrateResponse where
  chapters : List Chapter
  script : Option (List ScriptSegment)
  meta : NarrateMeta
deriving DecidableEq

/-- Python truthiness of an optional string setting (None and the empty
string are falsy). -/
def truthy_str : Option Str → Bool
  | none => false
  | some s => !s.isEmpty

/-- get_gemini_model from narrate.py: lazy one-time initialization gated
by the GEMINI_API_KEY setting.  The external client handle type and its
constructor are abstracted as parameters; cached is the process global
_gemini_model. -/
def get_gemini_model {Model : Type} (cached : Option Model)
    (gemini_api_key : Option Str) (init : Unit → Model) : Option Model :=
  match cached with
  | some m => some m
  | none => if truthy_str gemini_api_key then some (init ()) else none

/-- The fixed placeholder result returned by generate_narration when no
model is configured (narrate.py lines 119-139). -/
def placeholder_response : NarrateResponse :=
  { chapters := [
      { time_code := "00:00".toList, title := "Journey Begins".toList,
        description := some ("Starting our adventure".toList) },
      { time_code := "05:00".toList, title := "Main Destination".toList,
        description := some ("Arriving at the main location".toList) }],
    script := none,
    meta := { engine := "placeholder".toList,
              reason := some ("GEMINI_API_KEY not configured".toList) } }

/-- generate_narration (POST /narrate) from narrate.py.  The online branch
(prompt construction, the Gemini call and the JSON parsing of its reply)
depends entirely on the external generative model and is abstracted as the
online parameter; the model-absent branch is translated from source and
returns the fixed placeholder without consulting online or the request. -/
def generate_narration {Model Req : Type} (model : Option Model)
    (online : Model → Req → Except ApiError NarrateResponse) (request : Req) :
    Except ApiError NarrateResponse :=
  match model with
  | none => .ok placeholder_response
  | some m => online m request

/-- enrich_batch (POST /enrich_batch) from enrich.py: requests with more
than 100 points are rejected with HTTP 400; otherwise every point is
enriched in order and the cache-hit count reported.  The awaited external
enrichment and the cache lookup are abstracted as total oracles. -/
def enrich_batch {P R : Type} (enrich_point : P → R) (cache_has : P → Bool)
    (points : List P) : Except ApiError (List R × Nat × Nat) :=
  if points.length > 100 then
    .error (.http 400 "Maximum 100 points per batch request".toList)
  else
    .ok (points.map enrich_point, points.length, (points.filter cache_has).length)

/-- map_match (POST /map_match) from map_match.py: fewer than 2 or more
than 1000 coordinates are rejected with HTTP 400; otherwise the request is
forwarded to the external matcher (abstracted as a total oracle). -/
def map_match {C R : Type} (match_to_road_network : List C → R)
    (coordinates : List C) : Except ApiError R :=
  if coordinates.length < 2 then
    .error (.http 400 "At least 2 coordinates required for map matching".toList)
  else if coordinates.length > 1000 then
    .error (.http 400 "Maximum 1000 coordinates per request".toList)
  else
    .ok (match_to_road_network coordinates)

/-- A valid time code per the spec invariant: exactly 2 or 3 colon-
separated non-empty all-digit (hence non-negative integer) fields. -/
def validTimeCode (s : Str) : Bool :=
  let parts := pySplit ':' s
  (parts.length == 2 || parts.length == 3) &&
    parts.all (fun p => !p.isEmpty && p.all Char.isDigit)

/-- Spec-side parse of a valid time code to total seconds. -/
def timeCodeSecondsSpec (s : Str) : Nat :=
  match pySplit ':' s with
  | [m, se] => fieldVal m * 60 + fieldVal se
  | [h, m, se] => fieldVal h * 3600 + fieldVal m * 60 + fieldVal se
  | _ => 0

/-- HH:MM:SS rendering of a whole number of seconds by plain natural
division (the spec-side reading of the end-time rendering). -/
def hmsNat (t : Nat) : Str :=
  pad2Nat (t / 3600) ++ ":".toList ++ pad2Nat (t % 3600 / 60) ++ ":".toList ++
  pad2Nat (t % 60)

/-- Spec-side VTT cue of 0-based index i: cue number i+1; a start time
carrying a "00:" hours prefix exactly when the code has two fields and a
literal ".000" suffix; an end time that is the HH:MM:SS breakdown of the
floor of start seconds + word_count/2.5 seconds, with a literal ".000";
the narration; a blank separator line. -/
def vttCueSpec (i : Nat) (seg : ScriptSegment) : List Str :=
  let t := timeCodeSecondsSpec seg.time_code
  let endT := t + 2 * wordCount seg.narration / 5
  [decRepr (i + 1),
   (if (pySplit ':' seg.time_code).length = 2 then "00:".toList ++ seg.time_code
    else seg.time_code) ++ ".000".toList ++ " --> ".toList ++
     hmsNat endT ++ ".000".toList,
   seg.narration, []]

/-- Spec-side WebVTT document: the WEBVTT header, a blank line, then the
cues in order. -/
def format_vtt_spec (segments : List ScriptSegment) : Str :=
  joinNL ("WEBVTT".toList :: ([] : Str) ::
    (segments.enum.map (fun p => vttCueSpec p.1 p.2)).flatten)

/-- Spec-side reading of the claim's header stripping: remove the leading
8-character "WEBVTT\n\n" header. -/
def strip_header (s : Str) : Str := s.drop ("WEBVTT\n\n".toList.length)

-- ===================== digit-string lemmas =====================

theorem decReprAux_congr : ∀ f g n, n < f → n < g → decReprAux f n = decReprAux g n := by
  intro f
  induction f with
  | zero => intro g n h; omega
  | succ f ih =>
    intro g n hf hg
    cases g with
    | zero => omega
    | succ g =>
      simp only [decReprAux]
      by_cases h10 : n < 10
      · simp [h10]
      · have hlt : n / 10 < n := Nat.div_lt_self (by omega) (by omega)
        simp only [h10, if_false]
        rw [ih g (n / 10) (by omega) (by omega)]

theorem decRepr_eq (n : Nat) :
    decRepr n = if n < 10 then [Nat.digitChar n]
      else decRepr (n / 10) ++ [Nat.digitChar (n % 10)] := by
  unfold decRepr
  by_cases h : n < 10
  · simp [decReprAux, h]
  · have hlt : n / 10 < n := Nat.div_lt_self (by omega) (by omega)
    simp only [decReprAux, h, if_false]
    rw [decReprAux_congr n (n / 10 + 1) (n / 10) (by omega) (by omega)]
    simp only [decReprAux]

theorem digitChar_isDigit (m : Nat) (h : m < 10) : (Nat.digitChar m).isDigit = true := by
  interval_cases m <;> decide

theorem digitVal_digitChar (m : Nat) (h : m < 10) : digitVal (Nat.digitChar m) = m := by
  interval_cases m <;> decide

theorem decRepr_digits (n : Nat) : ∀ c ∈ decRepr n, c.isDigit = true := by
  induction n using Nat.strong_induction_on with
  | _ n ih =>
    rw [decRepr_eq]
    by_cases h : n < 10
    · simp only [h, if_true, List.mem_singleton]
      intro c hc
      subst hc
      exact digitChar_isDigit n h
    · simp only [h, if_false, List.mem_append, List.mem_singleton]
      intro c hc
      rcases hc with hc | hc
      · exact ih (n / 10) (Nat.div_lt_self (by omega) (by omega)) c hc
      · subst hc
        exact digitChar_isDigit (n % 10) (Nat.mod_lt _ (by omega))

theorem decRepr_ne_nil (n : Nat) : decRepr n ≠ [] := by
  rw [decRepr_eq]
  by_cases h : n < 10 <;> simp [h]

theorem foldVal_decRepr (n : Nat) : ∀ a : Nat,
    (decRepr n).foldl (fun a c => a * 10 + digitVal c) a =
      a * 10 ^ (decRepr n).length + n := by
  induction n using Nat.strong_induction_on with
  | _ n ih =>
    intro a
    rw [decRepr_eq]
    by_cases h : n < 10
    · simp only [h, if_true, List.foldl_cons, List.foldl_nil, List.length_singleton,
        pow_one]
      rw [digitVal_digitChar n h]
    · have hlt : n / 10 < n := Nat.div_lt_self (by omega) (by omega)
      simp only [h, if_false, List.foldl_append, List.foldl_cons, List.foldl_nil,
        List.length_append, List.length_singleton]
      rw [ih (n / 10) hlt a, digitVal_digitChar (n % 10) (Nat.mod_lt _ (by omega))]
      rw [pow_succ, ← mul_assoc]
      have hdm := Nat.div_add_mod n 10
      set B := a * 10 ^ (decRepr (n / 10)).length
      omega

theorem fieldVal_decRepr (n : Nat) : fieldVal (decRepr n) = n := by
  unfold fieldVal
  rw [foldVal_decRepr n 0]
  simp

theorem foldVal_replicate_zero (k : Nat) (l : Str) :
    (List.replicate k '0' ++ l).foldl (fun a c => a * 10 + digitVal c) 0 =
      l.foldl (fun a c => a * 10 + digitVal c) 0 := by
  induction k with
  | zero => rfl
  | succ k ih =>
    simpa [List.replicate_succ, List.foldl_cons, digitVal] using ih

theorem fieldVal_padZero2 (l : Str) : fieldVal (padZero2 l) = fieldVal l := by
  unfold fieldVal padZero2
  exact foldVal_replicate_zero _ l

theorem padZero2_all_digits (l : Str) (h : ∀ c ∈ l, c.isDigit = true) :
    ∀ c ∈ padZero2 l, c.isDigit = true := by
  intro c hc
  rcases List.mem_append.mp hc with hm | hm
  · rw [List.eq_of_mem_replicate hm]; decide
  · exact h c hm

theorem padZero2_ne_nil (l : Str) (h : l ≠ []) : padZero2 l ≠ [] := by
  unfold padZero2
  intro hc
  exact h (List.append_eq_nil.mp hc).2

theorem isDigit_toNat (c : Char) (h : c.isDigit = true) : 48 ≤ c.toNat ∧ c.toNat ≤ 57 := by
  simp [Char.isDigit] at h
  exact h

theorem isDigit_not_space (c : Char) (h : c.isDigit = true) : isSpaceCh c = false := by
  have hb := isDigit_toNat c h
  cases hsp : isSpaceCh c
  · rfl
  · exfalso
    unfold isSpaceCh at hsp
    simp only [Bool.or_eq_true, decide_eq_true_eq] at hsp
    rcases hsp with ((((h1 | h1) | h1) | h1) | h1) | h1
    · subst h1; exact absurd hb (by decide)
    · subst h1; exact absurd hb (by decide)
    · subst h1; exact absurd hb (by decide)
    · subst h1; exact absurd hb (by decide)
    · omega
    · omega

theorem isDigit_ne_sign (c : Char) (h : c.isDigit = true) :
    c ≠ '-' ∧ c ≠ '+' ∧ c ≠ ':' := by
  have hb := isDigit_toNat c h
  refine ⟨?_, ?_, ?_⟩ <;> intro he <;> subst he <;> exact absurd hb (by decide)

theorem trimWs_digits (l : Str) (h : ∀ c ∈ l, c.isDigit = true) : trimWs l = l := by
  unfold trimWs
  have h1 : l.dropWhile isSpaceCh = l := by
    cases l with
    | nil => rfl
    | cons c cs =>
      rw [List.dropWhile_cons_of_neg]
      simp [isDigit_not_space c (h c (by simp))]
  rw [h1]
  have h2 : l.reverse.dropWhile isSpaceCh = l.reverse := by
    cases hr : l.reverse with
    | nil => rfl
    | cons c cs =>
      have hc : c ∈ l := by
        rw [← List.mem_reverse, hr]
        simp
      rw [List.dropWhile_cons_of_neg]
      simp [isDigit_not_space c (h c hc)]
  rw [h2, List.reverse_reverse]

theorem parseDigits_of_digits (l : Str) (hne : l ≠ []) (h : ∀ c ∈ l, c.isDigit = true) :
    parseDigits l = some (fieldVal l) := by
  unfold parseDigits
  rw [if_pos]
  rw [Bool.and_eq_true]
  constructor
  · simpa using hne
  · rw [List.all_eq_true]
    exact h

theorem int_of_str_digits (l : Str) (hne : l ≠ []) (h : ∀ c ∈ l, c.isDigit = true) :
    int_of_str l = some ((fieldVal l : Nat) : Int) := by
  unfold int_of_str
  rw [trimWs_digits l h]
  cases l with
  | nil => exact absurd rfl hne
  | cons c cs =>
    have hc := h c (by simp)
    obtain ⟨h1, h2, _⟩ := isDigit_ne_sign c hc
    simp only [if_neg h1, if_neg h2]
    rw [parseDigits_of_digits (c :: cs) (by simp) h]
    rfl

theorem int_of_str_pad_decRepr (n : Nat) :
    int_of_str (padZero2 (decRepr n)) = some ((n : Nat) : Int) := by
  rw [int_of_str_digits _ (padZero2_ne_nil _ (decRepr_ne_nil n))
      (padZero2_all_digits _ (decRepr_digits n))]
  rw [fieldVal_padZero2, fieldVal_decRepr]

-- ===================== split lemmas =====================

theorem pySplit_ne_nil (sep : Char) (s : Str) : pySplit sep s ≠ [] := by
  cases s with
  | nil => simp [pySplit]
  | cons c cs =>
    unfold pySplit
    by_cases h : c = sep
    · simp [h]
    · rw [if_neg h]
      cases pySplit sep cs <;> simp

theorem pySplit_not_mem (sep : Char) (s : Str) (h : sep ∉ s) : pySplit sep s = [s] := by
  induction s with
  | nil => rfl
  | cons c cs ih =>
    rw [List.mem_cons, not_or] at h
    unfold pySplit
    rw [if_neg (fun he => h.1 he.symm), ih h.2]

theorem pySplit_cons (sep c : Char) (cs : Str) :
    pySplit sep (c :: cs) =
      if c = sep then [] :: pySplit sep cs
      else
        match pySplit sep cs with
        | [] => [[c]]
        | f :: t => (c :: f) :: t := rfl

theorem pySplit_append (sep : Char) (l1 l2 : Str) (h : sep ∉ l1) :
    pySplit sep (l1 ++ sep :: l2) = l1 :: pySplit sep l2 := by
  induction l1 with
  | nil => simp [pySplit]
  | cons c cs ih =>
    rw [List.mem_cons, not_or] at h
    rw [List.cons_append, pySplit_cons, if_neg (fun he => h.1 he.symm), ih h.2]

theorem countChar_cons (ch c : Char) (cs : Str) :
    countChar ch (c :: cs) = (if c = ch then 1 else 0) + countChar ch cs := by
  unfold countChar
  rw [List.filter_cons]
  by_cases h : c = ch
  · simp [h]; omega
  · simp [h]

theorem pySplit_length (sep : Char) (s : Str) :
    (pySplit sep s).length = countChar sep s + 1 := by
  induction s with
  | nil => simp [pySplit, countChar]
  | cons c cs ih =>
    rw [countChar_cons]
    unfold pySplit
    by_cases h : c = sep
    · rw [if_pos h, if_pos h]
      simp only [List.length_cons, ih]
      omega
    · rw [if_neg h, if_neg h]
      cases hs : pySplit sep cs with
      | nil => exact absurd hs (pySplit_ne_nil sep cs)
      | cons f t =>
        have ih' := ih
        rw [hs] at ih'
        simp only [List.length_cons] at ih' ⊢
        omega

-- ===================== replace lemmas =====================

theorem pyReplaceAux_congr (pat repl : Str) : ∀ f g s, s.length ≤ f → s.length ≤ g →
    pyReplaceAux pat repl f s = pyReplaceAux pat repl g s := by
  intro f
  induction f with
  | zero =>
    intro g s hf _
    cases s with
    | nil => cases g <;> rfl
    | cons c cs => simp at hf
  | succ f ih =>
    intro g s hf hg
    cases s with
    | nil => cases g <;> rfl
    | cons c cs =>
      cases g with
      | zero => simp at hg
      | succ g =>
        simp only [pyReplaceAux]
        simp only [List.length_cons] at hf hg
        by_cases hp : pat.isPrefixOf (c :: cs)
        · rw [if_pos hp, if_pos hp]
          congr 1
          apply ih
          · simp only [List.length_drop]; omega
          · simp only [List.length_drop]; omega
        · rw [if_neg hp, if_neg hp]
          congr 1
          apply ih <;> omega

theorem pyReplace_nil (pat repl : Str) : pyReplace pat repl [] = [] := rfl

theorem pyReplace_cons (pat repl : Str) (c : Char) (cs : Str) :
    pyReplace pat repl (c :: cs) =
      if pat.isPrefixOf (c :: cs) then
        repl ++ pyReplace pat repl (cs.drop (pat.length - 1))
      else c :: pyReplace pat repl cs := by
  unfold pyReplace
  simp only [List.length_cons, pyReplaceAux]
  by_cases hp : pat.isPrefixOf (c :: cs)
  · rw [if_pos hp, if_pos hp]
    congr 1
    apply pyReplaceAux_congr
    · simp only [List.length_drop]; omega
    · exact le_refl _
  · rw [if_neg hp, if_neg hp]

theorem pyReplace_not_sub (pat repl s : Str) (h : hasSub pat s = false) :
    pyReplace pat repl s = s := by
  induction s with
  | nil => rfl
  | cons c cs ih =>
    unfold hasSub at h
    rw [Bool.or_eq_false_iff] at h
    rw [pyReplace_cons, if_neg (by simp [h.1]), ih h.2]

theorem isPrefixOf_append_self (l r : Str) : l.isPrefixOf (l ++ r) = true := by
  induction l with
  | nil => simp [List.isPrefixOf]
  | cons c cs ih => simp [List.isPrefixOf, ih]

theorem pyReplace_pat_head (pat repl rest : Str) (h : pat ≠ []) :
    pyReplace pat repl (pat ++ rest) = repl ++ pyReplace pat repl rest := by
  cases pat with
  | nil => exact absurd rfl h
  | cons p ps =>
    rw [List.cons_append, pyReplace_cons]
    rw [if_pos (by rw [← List.cons_append]; exact isPrefixOf_append_self _ _)]
    simp only [List.length_cons, Nat.add_sub_cancel]
    rw [List.drop_left]

-- ===================== join lemmas =====================

theorem joinNL_cons_cons (a b : Str) (l : List Str) :
    joinNL (a :: b :: l) = a ++ "\n".toList ++ joinNL (b :: l) := by
  unfold joinNL
  rw [List.intercalate, List.intercalate, List.intersperse_cons_cons,
    List.flatten_cons, List.flatten_cons, List.append_assoc]

-- ===================== floor bridge lemmas =====================

theorem int_of_float_nonneg (q : ℚ) (h : 0 ≤ q) : int_of_float q = ⌊q⌋ := if_pos h

theorem pyFloorDiv_floor_nat (es : ℚ) (n : ℕ) (hes : 0 ≤ es) :
    int_of_float (pyFloorDiv es (n : ℚ)) = ((⌊es⌋₊ / n : ℕ) : ℤ) := by
  unfold pyFloorDiv int_of_float
  have hq : (0 : ℚ) ≤ es / (n : ℚ) := div_nonneg hes (by positivity)
  have h0 : (0 : ℚ) ≤ ((⌊es / (n : ℚ)⌋ : ℤ) : ℚ) := by
    rw [← Int.natCast_floor_eq_floor hq]
    positivity
  rw [if_pos h0, Int.floor_intCast]
  rw [← Int.natCast_floor_eq_floor hq, Nat.floor_div_nat]

theorem pyMod_eq (es : ℚ) (n : ℕ) (hes : 0 ≤ es) :
    pyMod es (n : ℚ) = es - ((n * (⌊es⌋₊ / n) : ℕ) : ℚ) := by
  unfold pyMod pyFloorDiv
  rw [← Int.natCast_floor_eq_floor (div_nonneg hes (by positivity)), Nat.floor_div_nat]
  rw [Int.cast_natCast, Nat.cast_mul]

theorem pyMod_nonneg (es : ℚ) (n : ℕ) (hes : 0 ≤ es) : 0 ≤ pyMod es (n : ℚ) := by
  rw [pyMod_eq es n hes]
  have h1 : ((n * (⌊es⌋₊ / n) : ℕ) : ℚ) ≤ ((⌊es⌋₊ : ℕ) : ℚ) := by
    have hdm := Nat.div_add_mod ⌊es⌋₊ n
    have h' : n * (⌊es⌋₊ / n) ≤ ⌊es⌋₊ := by omega
    exact_mod_cast h'
  have h2 : ((⌊es⌋₊ : ℕ) : ℚ) ≤ es := Nat.floor_le hes
  linarith

theorem pyMod_floor (es : ℚ) (n : ℕ) (hes : 0 ≤ es) :
    ⌊pyMod es (n : ℚ)⌋₊ = ⌊es⌋₊ % n := by
  rw [pyMod_eq es n hes, Nat.floor_sub_nat]
  have hdm := Nat.div_add_mod ⌊es⌋₊ n
  omega

theorem formatInt02_natCast (k : ℕ) : formatInt02 ((k : ℕ) : ℤ) = pad2Nat k := by
  unfold formatInt02 intRepr pad2Nat
  rw [if_neg (by simp)]
  rw [Int.toNat_natCast]

theorem hms_render_eq (es : ℚ) (hes : 0 ≤ es) : hms_render es = hmsNat ⌊es⌋₊ := by
  have h36 : ((3600 : ℕ) : ℚ) = 3600 := by norm_num
  have h60 : ((60 : ℕ) : ℚ) = 60 := by norm_num
  unfold hms_render hmsNat
  rw [← h36, ← h60]
  rw [pyFloorDiv_floor_nat es 3600 hes]
  rw [pyFloorDiv_floor_nat (pyMod es ((3600 : ℕ) : ℚ)) 60 (pyMod_nonneg es 3600 hes)]
  rw [pyMod_floor es 3600 hes]
  rw [int_of_float_nonneg _ (pyMod_nonneg es 60 hes)]
  rw [← Int.natCast_floor_eq_floor (pyMod_nonneg es 60 hes)]
  rw [pyMod_floor es 60 hes]
  rw [formatInt02_natCast, formatInt02_natCast, formatInt02_natCast]

theorem floor_add_words (t w : ℕ) :
    ⌊((t : ℕ) : ℚ) + ((w : ℕ) : ℚ) / (5 / 2)⌋₊ = t + 2 * w / 5 := by
  have h1 : ((w : ℕ) : ℚ) / (5 / 2) = ((2 * w : ℕ) : ℚ) / ((5 : ℕ) : ℚ) := by
    push_cast
    ring
  rw [h1, add_comm, Nat.floor_add_nat (by positivity)]
  rw [Nat.floor_div_nat, Nat.floor_natCast]
  omega

theorem words_div_nonneg (t w : ℕ) :
    (0 : ℚ) ≤ ((t : ℕ) : ℚ) + ((w : ℕ) : ℚ) / (5 / 2) := by positivity

-- ===================== time_to_seconds lemmas =====================

theorem ne_nil_of_not_isEmpty (p : Str) (h1 : (!p.isEmpty) = true) : p ≠ [] := by
  intro he
  rw [he] at h1
  simp at h1

theorem time_to_seconds_two (s p q : Str) (a b : ℤ)
    (hs : pySplit ':' s = [p, q]) (ha : int_of_str p = some a)
    (hb : int_of_str q = some b) :
    time_to_seconds s = .ok (a * 60 + b) := by
  simp [time_to_seconds, hs, listIdx, intField, ha, hb, bind, Except.bind,
    Functor.map, Except.map, pure, Except.pure]

theorem time_to_seconds_three (s p q r : Str) (rest : List Str) (a b c : ℤ)
    (hs : pySplit ':' s = p :: q :: r :: rest) (ha : int_of_str p = some a)
    (hb : int_of_str q = some b) (hc : int_of_str r = some c) :
    time_to_seconds s = .ok (a * 3600 + b * 60 + c) := by
  simp [time_to_seconds, hs, listIdx, intField, ha, hb, hc, bind, Except.bind,
    Functor.map, Except.map, pure, Except.pure]

theorem time_to_seconds_two_err (s p q : Str) (hs : pySplit ':' s = [p, q])
    (h : int_of_str p = none ∨ int_of_str q = none) :
    time_to_seconds s = .error .valueError := by
  rcases hp : int_of_str p with _ | a
  · simp [time_to_seconds, hs, listIdx, intField, hp, bind, Except.bind,
      Functor.map, Except.map]
  · rcases h with h | h
    · rw [hp] at h
      exact absurd h (by simp)
    · simp [time_to_seconds, hs, listIdx, intField, hp, h, bind, Except.bind,
        Functor.map, Except.map]

theorem time_to_seconds_three_err (s p q r : Str) (rest : List Str)
    (hs : pySplit ':' s = p :: q :: r :: rest)
    (h : int_of_str p = none ∨ int_of_str q = none ∨ int_of_str r = none) :
    time_to_seconds s = .error .valueError := by
  rcases hp : int_of_str p with _ | a
  · simp [time_to_seconds, hs, listIdx, intField, hp, bind, Except.bind,
      Functor.map, Except.map]
  · rcases hq : int_of_str q with _ | b
    · simp [time_to_seconds, hs, listIdx, intField, hp, hq, bind, Except.bind,
        Functor.map, Except.map]
    · rcases hr : int_of_str r with _ | c
      · simp [time_to_seconds, hs, listIdx, intField, hp, hq, hr, bind,
          Except.bind, Functor.map, Except.map]
      · rw [hp] at h
        rw [hq] at h
        rw [hr] at h
        rcases h with h | h | h <;> exact absurd h (by simp)

theorem time_to_seconds_one (s p : Str) (a : ℤ) (hs : pySplit ':' s = [p])
    (ha : int_of_str p = some a) :
    time_to_seconds s = .error .indexError := by
  simp [time_to_seconds, hs, listIdx, intField, ha, bind, Except.bind,
    Functor.map, Except.map]

theorem time_to_seconds_valid (s : Str) (h : validTimeCode s = true) :
    time_to_seconds s = .ok ((timeCodeSecondsSpec s : ℕ) : ℤ) := by
  unfold validTimeCode at h
  simp only [Bool.and_eq_true, Bool.or_eq_true, beq_iff_eq, List.all_eq_true] at h
  obtain ⟨hlen, hfields⟩ := h
  rcases hlen with h2 | h3
  · obtain ⟨p, q, hpq⟩ := List.length_eq_two.mp h2
    obtain ⟨hp1, hpd⟩ := hfields p (by rw [hpq]; simp)
    obtain ⟨hq1, hqd⟩ := hfields q (by rw [hpq]; simp)
    rw [time_to_seconds_two s p q _ _ hpq
      (int_of_str_digits p (ne_nil_of_not_isEmpty p hp1) hpd)
      (int_of_str_digits q (ne_nil_of_not_isEmpty q hq1) hqd)]
    simp only [timeCodeSecondsSpec, hpq]
    push_cast
    ring_nf
  · obtain ⟨p, q, r, hpqr⟩ := List.length_eq_three.mp h3
    obtain ⟨hp1, hpd⟩ := hfields p (by rw [hpqr]; simp)
    obtain ⟨hq1, hqd⟩ := hfields q (by rw [hpqr]; simp)
    obtain ⟨hr1, hrd⟩ := hfields r (by rw [hpqr]; simp)
    rw [time_to_seconds_three s p q r [] _ _ _ hpqr
      (int_of_str_digits p (ne_nil_of_not_isEmpty p hp1) hpd)
      (int_of_str_digits q (ne_nil_of_not_isEmpty q hq1) hqd)
      (int_of_str_digits r (ne_nil_of_not_isEmpty r hr1) hrd)]
    simp only [timeCodeSecondsSpec, hpqr]
    push_cast
    ring_nf

theorem pad2Nat_ne_nil (n : Nat) : pad2Nat n ≠ [] :=
  padZero2_ne_nil _ (decRepr_ne_nil n)

theorem pad2Nat_digits (n : Nat) : ∀ c ∈ pad2Nat n, c.isDigit = true :=
  padZero2_all_digits _ (decRepr_digits n)

theorem colon_not_mem_digits (l : Str) (h : ∀ c ∈ l, c.isDigit = true) : ':' ∉ l := by
  intro hm
  exact absurd (h ':' hm) (by decide)

theorem int_of_str_pad2Nat (n : Nat) : int_of_str (pad2Nat n) = some ((n : Nat) : ℤ) :=
  int_of_str_pad_decRepr n

theorem pySplit_hmsNat (t : Nat) :
    pySplit ':' (hmsNat t) =
      [pad2Nat (t / 3600), pad2Nat (t % 3600 / 60), pad2Nat (t % 60)] := by
  have h1 : hmsNat t =
      pad2Nat (t / 3600) ++
        ':' :: (pad2Nat (t % 3600 / 60) ++ ':' :: pad2Nat (t % 60)) := by
    unfold hmsNat
    rw [show (":".toList : Str) = [':'] from rfl]
    simp
  rw [h1]
  rw [pySplit_append ':' (pad2Nat (t / 3600)) _
    (colon_not_mem_digits _ (pad2Nat_digits _))]
  rw [pySplit_append ':' (pad2Nat (t % 3600 / 60)) _
    (colon_not_mem_digits _ (pad2Nat_digits _))]
  rw [pySplit_not_mem ':' _ (colon_not_mem_digits _ (pad2Nat_digits _))]

theorem time_to_seconds_hmsNat (t : Nat) :
    time_to_seconds (hmsNat t) = .ok ((t : ℕ) : ℤ) := by
  rw [time_to_seconds_three (hmsNat t) (pad2Nat (t / 3600)) (pad2Nat (t % 3600 / 60))
    (pad2Nat (t % 60)) [] _ _ _ (pySplit_hmsNat t) (int_of_str_pad2Nat _)
    (int_of_str_pad2Nat _) (int_of_str_pad2Nat _)]
  congr 1
  push_cast
  omega

-- ===================== vtt lemmas =====================

theorem vttCueLines_valid (i : Nat) (seg : ScriptSegment)
    (h : validTimeCode seg.time_code = true) :
    vttCueLines i seg = .ok (vttCueSpec i seg) := by
  unfold vttCueLines
  rw [time_to_seconds_valid _ h]
  simp only [bind, Except.bind, pure, Except.pure]
  unfold vttCueSpec
  rw [Int.cast_natCast]
  rw [hms_render_eq _ (words_div_nonneg _ _)]
  rw [floor_add_words]
  have hlen := pySplit_length ':' seg.time_code
  by_cases hc : countChar ':' seg.time_code = 1
  · rw [if_pos hc, if_pos (by omega)]
    simp [List.append_assoc]
  · rw [if_neg hc, if_neg (by omega)]
    simp [List.append_assoc]

theorem vtt_blocks_valid (segs : List ScriptSegment)
    (h : ∀ seg ∈ segs, validTimeCode seg.time_code = true) :
    ∀ n, (List.enumFrom n segs).mapM (fun p => vttCueLines p.1 p.2) =
      .ok ((List.enumFrom n segs).map (fun p => vttCueSpec p.1 p.2)) := by
  induction segs with
  | nil => intro n; rfl
  | cons sg rest ih =>
    intro n
    simp only [List.enumFrom]
    rw [List.mapM_cons]
    rw [vttCueLines_valid n sg (h sg (by simp))]
    rw [ih (fun s hs => h s (by simp [hs])) (n + 1)]
    simp [bind, Except.bind, pure, Except.pure]

theorem format_vtt_valid (segs : List ScriptSegment)
    (h : ∀ seg ∈ segs, validTimeCode seg.time_code = true) :
    format_vtt segs = .ok (format_vtt_spec segs) := by
  unfold format_vtt format_vtt_spec
  rw [show List.enum segs = List.enumFrom 0 segs from rfl]
  rw [vtt_blocks_valid segs h 0]
  simp [bind, Except.bind, pure, Except.pure]

-- ===================== export_script lemmas =====================

theorem except_map_eq_ok {e : Type} {a b : Type} (x : Except e a) (f : a → b) (r : b)
    (h : x.map f = .ok r) : ∃ y, x = .ok y ∧ r = f y := by
  cases x with
  | error err => simp [Except.map] at h
  | ok y =>
    refine ⟨y, rfl, ?_⟩
    simp [Except.map] at h
    exact h.symm

theorem export_script_vtt_ok (segs : List ScriptSegment) (wpm : Nat)
    (hne : segs ≠ []) (v : Str) (hv : format_vtt segs = .ok v) :
    export_script ⟨segs, "vtt".toList, wpm⟩ =
      .ok ⟨"vtt".toList, v, "script.vtt".toList,
        (((segs.map (fun s => wordCount s.narration)).sum : ℚ) / (wpm : ℚ)) * 60⟩ := by
  unfold export_script
  rw [if_neg hne]
  simp only [hv, Except.map, Except.mapError]
  rw [if_pos trivial]
  rw [if_neg (by decide : ¬("vtt".toList : Str) = "teleprompter".toList)]

theorem export_script_srt_ok (segs : List ScriptSegment) (wpm : Nat)
    (hne : segs ≠ []) (v : Str) (hv : format_vtt segs = .ok v) :
    export_script ⟨segs, "srt".toList, wpm⟩ =
      .ok ⟨"srt".toList,
        pyReplace ".".toList ",".toList (pyReplace "WEBVTT\n\n".toList [] v),
        "script.srt".toList,
        (((segs.map (fun s => wordCount s.narration)).sum : ℚ) / (wpm : ℚ)) * 60⟩ := by
  unfold export_script
  rw [if_neg hne]
  simp only [hv, Except.map, Except.mapError]
  rw [if_pos trivial]
  rw [if_neg (by decide : ¬("srt".toList : Str) = "teleprompter".toList)]
  rw [if_neg (by decide : ¬("srt".toList : Str) = "vtt".toList)]

theorem export_script_teleprompter_ok (segs : List ScriptSegment) (wpm : Nat)
    (hne : segs ≠ []) :
    export_script ⟨segs, "teleprompter".toList, wpm⟩ =
      .ok ⟨"teleprompter".toList, format_teleprompter segs,
        "script_teleprompter.txt".toList,
        (((segs.map (fun s => wordCount s.narration)).sum : ℚ) / (wpm : ℚ)) * 60⟩ := by
  unfold export_script
  rw [if_neg hne]
  simp only [Except.map]
  rw [if_pos trivial]

theorem export_script_ok_estimate (segs : List ScriptSegment) (fmt : Str) (wpm : Nat)
    (resp : ExportScriptResponse)
    (hok : export_script ⟨segs, fmt, wpm⟩ = .ok resp) :
    resp.estimated_duration_seconds =
      (((segs.map (fun s => wordCount s.narration)).sum : ℚ) / (wpm : ℚ)) * 60 := by
  unfold export_script at hok
  by_cases h : segs = []
  · rw [if_pos h] at hok
    exact absurd hok (by simp)
  · rw [if_neg h] at hok
    obtain ⟨cf, _, hr⟩ := except_map_eq_ok _ _ _ hok
    rw [hr]

theorem vttCueLines_ok_shape (i : Nat) (s : ScriptSegment) (b : List Str)
    (h : vttCueLines i s = .ok b) :
    ∃ l2, b = [decRepr (i + 1), l2, s.narration, []] := by
  unfold vttCueLines at h
  cases ht : time_to_seconds s.time_code with
  | error e =>
    rw [ht] at h
    simp [bind, Except.bind] at h
  | ok t =>
    rw [ht] at h
    simp only [bind, Except.bind, pure, Except.pure, Except.ok.injEq] at h
    exact ⟨_, h.symm⟩

theorem format_vtt_header (segs : List ScriptSegment) (v : Str)
    (hne : segs ≠ []) (hv : format_vtt segs = .ok v) :
    v = "WEBVTT\n\n".toList ++ strip_header v := by
  cases segs with
  | nil => exact absurd rfl hne
  | cons sg rest =>
    unfold format_vtt at hv
    rw [show List.enum (sg :: rest) = (0, sg) :: List.enumFrom 1 rest from rfl] at hv
    rw [List.mapM_cons] at hv
    cases hb0 : vttCueLines 0 sg with
    | error e =>
      rw [hb0] at hv
      simp [bind, Except.bind] at hv
    | ok b0 =>
      rw [hb0] at hv
      cases hbr : (List.enumFrom 1 rest).mapM (fun p => vttCueLines p.1 p.2) with
      | error e =>
        rw [hbr] at hv
        simp [bind, Except.bind] at hv
      | ok brest =>
        rw [hbr] at hv
        simp only [bind, Except.bind, pure, Except.pure, Except.ok.injEq] at hv
        obtain ⟨l2, hb0s⟩ := vttCueLines_ok_shape 0 sg b0 hb0
        subst hb0s
        rw [← hv]
        rw [List.flatten_cons]
        simp only [List.cons_append]
        rw [joinNL_cons_cons, joinNL_cons_cons]
        have hsh : ∀ J : Str,
            strip_header ("WEBVTT".toList ++ "\n".toList ++
              (([] : Str) ++ "\n".toList ++ J)) = J := by
          intro J
          show List.drop ("WEBVTT\n\n".toList.length) _ = J
          rw [show ("WEBVTT\n\n".toList.length) = ("WEBVTT\n\n".toList : Str).length from rfl]
          rw [show ("WEBVTT".toList ++ "\n".toList ++ (([] : Str) ++ "\n".toList ++ J)) =
            ("WEBVTT\n\n".toList : Str) ++ J by simp]
          exact List.drop_left _ _
        rw [hsh]
        simp

-- ===================== format_srt_chapters lemmas =====================

theorem except_isOk_exists {e a : Type} (x : Except e a) (h : x.isOk = true) :
    ∃ y, x = .ok y := by
  cases x with
  | ok y => exact ⟨y, rfl⟩
  | error err => simp [Except.isOk, Except.toBool] at h

theorem srtChapterLines_single_part (i : Nat) (ch : Chapter) (p : Str)
    (hs : pySplit ':' ch.time_code = [p]) :
    srtChapterLines i ch = .error .indexError := by
  simp [srtChapterLines, hs, listIdx, bind, Except.bind]

theorem srtChapterLines_two_parts (i : Nat) (ch : Chapter) (p q : Str)
    (hs : pySplit ':' ch.time_code = [p, q]) :
    (srtChapterLines i ch).isOk = true := by
  simp [srtChapterLines, hs, listIdx, bind, Except.bind, pure, Except.pure,
    Except.isOk, Except.toBool]

theorem srtChapterLines_three_parts (i : Nat) (ch : Chapter) (p q r : Str)
    (rest : List Str) (hs : pySplit ':' ch.time_code = p :: q :: r :: rest) :
    (srtChapterLines i ch).isOk = true := by
  unfold srtChapterLines
  rw [hs]
  rw [if_neg (by simp)]
  simp [listIdx, bind, Except.bind, pure, Except.pure, Except.isOk, Except.toBool]

theorem format_srt_single (ch : Chapter) (b : List Str)
    (h : srtChapterLines 0 ch = .ok b) :
    format_srt_chapters [ch] = .ok (joinNL b) := by
  unfold format_srt_chapters
  rw [show List.enum [ch] = [(0, ch)] from rfl]
  rw [List.mapM_cons, h]
  simp [bind, Except.bind, pure, Except.pure, List.mapM.loop]

theorem format_srt_single_err (ch : Chapter) (e : PyError)
    (h : srtChapterLines 0 ch = .error e) :
    format_srt_chapters [ch] = .error e := by
  unfold format_srt_chapters
  rw [show List.enum [ch] = [(0, ch)] from rfl]
  rw [List.mapM_cons, h]
  simp [bind, Except.bind]

-- ===================== claim theorems =====================

/-- C1: the spec says the SRT chapter export's time range line ends at the
chapter's start time plus exactly 30 seconds in HH:MM:SS,mmm form, and the
code comment states the same intent, but the code slices the start-time
string ("start_time[:-4]" then appending "30,000") and instead emits the
malformed end time "00:00:0030,000" for the chapter starting at 00:00:
evaluating the embedded format_srt_chapters at that failing input shows
the emitted range line and that it differs from the claimed start+30s
rendering "00:00:30,000". -/
theorem C1_srt_chapter_end_time_bug :
    format_srt_chapters [⟨"00:00".toList, "Intro".toList, none⟩] =
      .ok ("1\n00:00:00,000 --> 00:00:0030,000\nIntro\n".toList) ∧
    ("1\n00:00:00,000 --> 00:00:0030,000\nIntro\n".toList : Str) ≠
      "1\n00:00:00,000 --> 00:00:30,000\nIntro\n".toList := by
  exact ⟨by decide, by decide⟩

/-- C3 counterexample: the claim says time_to_seconds raises a parsing
error for every field count other than 2 or 3 and never silently returns
a value for malformed input, but on the 4-field string "1:2:3:4" it
silently returns 3723, using the first three fields. -/
theorem C3_counterexample : time_to_seconds ("1:2:3:4".toList) = .ok 3723 := by
  decide

/-- C3 (amended): time_to_seconds returns minutes*60+seconds for exactly 2
integer fields; for 3 OR MORE fields it returns h*3600+m*60+s computed
from the first three fields, silently ignoring any extras; a needed
non-integer field raises ValueError (a parsing error); a single-field
string raises IndexError (an out-of-bounds error, not a parsing error). -/
theorem C3_amended_cases (s : Str) :
    (∀ p q : Str, ∀ a b : ℤ, pySplit ':' s = [p, q] → int_of_str p = some a →
      int_of_str q = some b → time_to_seconds s = .ok (a * 60 + b)) ∧
    (∀ p q : Str, pySplit ':' s = [p, q] →
      (int_of_str p = none ∨ int_of_str q = none) →
      time_to_seconds s = .error .valueError) ∧
    (∀ p q r : Str, ∀ rest : List Str, ∀ a b c : ℤ,
      pySplit ':' s = p :: q :: r :: rest → int_of_str p = some a →
      int_of_str q = some b → int_of_str r = some c →
      time_to_seconds s = .ok (a * 3600 + b * 60 + c)) ∧
    (∀ p q r : Str, ∀ rest : List Str, pySplit ':' s = p :: q :: r :: rest →
      (int_of_str p = none ∨ int_of_str q = none ∨ int_of_str r = none) →
      time_to_seconds s = .error .valueError) ∧
    (∀ p : Str, ∀ a : ℤ, pySplit ':' s = [p] → int_of_str p = some a →
      time_to_seconds s = .error .indexError) := by
  refine ⟨?_, ?_, ?_, ?_, ?_⟩
  · intro p q a b hs ha hb
    exact time_to_seconds_two s p q a b hs ha hb
  · intro p q hs h
    exact time_to_seconds_two_err s p q hs h
  · intro p q r rest a b c hs ha hb hc
    exact time_to_seconds_three s p q r rest a b c hs ha hb hc
  · intro p q r rest hs h
    exact time_to_seconds_three_err s p q r rest hs h
  · intro p a hs ha
    exact time_to_seconds_one s p a hs ha

/-- C3 amended witness at the concrete inputs "01:30" (2 integer fields)
and "ab:cd" (non-integer fields). -/
theorem C3_amended_cases_witness :
    time_to_seconds ("01:30".toList) = .ok (1 * 60 + 30) ∧
    time_to_seconds ("ab:cd".toList) = .error .valueError :=
  ⟨(C3_amended_cases ("01:30".toList)).1 ("01".toList) ("30".toList) 1 30
      (by decide) (by decide) (by decide),
    (C3_amended_cases ("ab:cd".toList)).2.1 ("ab".toList) ("cd".toList)
      (by decide) (Or.inl (by decide))⟩

/-- C5: for every valid 2- or 3-part time code, parsing it with
time_to_seconds, rendering the resulting seconds value back with the
HH:MM:SS formatter (hms_render, the rendering used by format_vtt's end
times and the spec's format_time_code), and parsing again yields the same
total-seconds value. -/
theorem C5_roundtrip (s : Str) (t : ℤ) (hvalid : validTimeCode s = true)
    (hparse : time_to_seconds s = .ok t) :
    time_to_seconds (hms_render (t : ℚ)) = .ok t := by
  have h := time_to_seconds_valid s hvalid
  rw [hparse] at h
  have ht := Except.ok.inj h
  rw [ht]
  rw [show ((((timeCodeSecondsSpec s : ℕ) : ℤ)) : ℚ) =
    ((timeCodeSecondsSpec s : ℕ) : ℚ) from by push_cast; rfl]
  rw [hms_render_eq _ (by positivity), Nat.floor_natCast]
  exact time_to_seconds_hmsNat _

/-- C5 witness: the code "01:30" parses to 90 seconds and the rendering
round-trips. -/
theorem C5_roundtrip_witness : time_to_seconds (hms_render ((90 : ℤ) : ℚ)) = .ok 90 :=
  C5_roundtrip ("01:30".toList) 90 (by decide) (by decide)

/-- C7: whenever no generative-model credential is configured (the key is
absent or empty and no client was previously cached), /narrate returns the
same fixed two-chapter placeholder result with meta.engine "placeholder"
and a reason string, for every request and independently of the external
model oracle (so the model is never consulted and the fallback is
deterministic). -/
theorem C7_placeholder_fallback {Model Req : Type} (key : Option Str)
    (hkey : truthy_str key = false) (init : Unit → Model)
    (online : Model → Req → Except ApiError NarrateResponse) (req : Req) :
    generate_narration (get_gemini_model none key init) online req =
      .ok placeholder_response ∧
    placeholder_response.meta.engine = "placeholder".toList ∧
    placeholder_response.chapters.length = 2 ∧
    placeholder_response.meta.reason = some ("GEMINI_API_KEY not configured".toList) := by
  refine ⟨?_, rfl, rfl, rfl⟩
  simp [get_gemini_model, hkey, generate_narration]

/-- C7 witness at the concrete instantiation with no key and a failing
online oracle. -/
theorem C7_placeholder_fallback_witness :
    generate_narration (get_gemini_model (none : Option Unit) none (fun _ => ()))
      (fun (_ : Unit) (_ : Unit) => Except.error (ApiError.http 500 [])) () =
      .ok placeholder_response :=
  (C7_placeholder_fallback none (by decide) (fun _ => ())
    (fun (_ : Unit) (_ : Unit) => Except.error (ApiError.http 500 [])) ()).1

/-- C8: both export endpoints reject the empty chapters/segments list with
an HTTP 400 error, for every format string and parameter value; the
formatters are never reached since the guard precedes the dispatch. -/
theorem C8_empty_list_rejected (fmt : Str) (its : Bool) (wpm : Nat) :
    export_chapters ⟨[], fmt, its⟩ =
      .error (.http 400 "No chapters provided".toList) ∧
    export_script ⟨[], fmt, wpm⟩ =
      .error (.http 400 "No script segments provided".toList) := by
  constructor
  · unfold export_chapters
    rw [if_pos rfl]
  · unfold export_script
    rw [if_pos rfl]

/-- C9: batch enrichment rejects point lists longer than 100 with HTTP 400
and accepts lists of at most 100; map matching rejects fewer than 2 or
more than 1000 coordinates with HTTP 400 and accepts counts from 2 to
1000. -/
theorem C9_size_limits {P C R S : Type} (enrich_point : P → R)
    (cache_has : P → Bool) (matcher : List C → S) (points : List P)
    (coords : List C) :
    (points.length > 100 →
      enrich_batch enrich_point cache_has points =
        .error (.http 400 "Maximum 100 points per batch request".toList)) ∧
    (points.length ≤ 100 → (enrich_batch enrich_point cache_has points).isOk = true) ∧
    (coords.length < 2 →
      map_match matcher coords =
        .error (.http 400 "At least 2 coordinates required for map matching".toList)) ∧
    (coords.length > 1000 →
      map_match matcher coords =
        .error (.http 400 "Maximum 1000 coordinates per request".toList)) ∧
    (2 ≤ coords.length → coords.length ≤ 1000 → (map_match matcher coords).isOk = true) := by
  unfold enrich_batch map_match
  refine ⟨?_, ?_, ?_, ?_, ?_⟩
  · intro h
    rw [if_pos h]
  · intro h
    rw [if_neg (by omega)]
    rfl
  · intro h
    rw [if_pos h]
  · intro h
    rw [if_neg (by omega), if_pos h]
  · intro h1 h2
    rw [if_neg (by omega), if_neg (by omega)]
    rfl

/-- C9 witness at a 101-point batch (rejected) and a 2-coordinate match
request (accepted). -/
theorem C9_size_limits_witness :
    enrich_batch (fun _ : Unit => ()) (fun _ => false) (List.replicate 101 ()) =
      .error (.http 400 "Maximum 100 points per batch request".toList) ∧
    (map_match (fun _ : List Unit => ()) [(), ()]).isOk = true := by
  have h := C9_size_limits (fun _ : Unit => ()) (fun _ => false)
    (fun _ : List Unit => ()) (List.replicate 101 ()) [(), ()]
  exact ⟨h.1 (by decide), h.2.2.2.2 (by decide) (by decide)⟩

/-- C2: for every list of script segments whose time codes are valid 2- or
3-part codes, format_vtt succeeds and produces the WEBVTT header, a blank
line, and for each segment of 0-based index i a cue numbered i+1 whose
range line ends at the HH:MM:SS breakdown (with a literal ".000") of the
floor of start seconds + word_count(narration)/2.5, with 2-part start
codes prefixed by "00:" and given a literal ".000" suffix (the spec-side
rendering format_vtt_spec states all of this with plain natural-number
arithmetic); moreover the configured reading_speed_wpm has no effect on
the exported vtt content. -/
theorem C2_vtt_cue_structure (segs : List ScriptSegment)
    (h : ∀ seg ∈ segs, validTimeCode seg.time_code = true) :
    format_vtt segs = .ok (format_vtt_spec segs) ∧
    ∀ w1 w2 : Nat,
      (export_script ⟨segs, "vtt".toList, w1⟩).map (fun r => r.content) =
        (export_script ⟨segs, "vtt".toList, w2⟩).map (fun r => r.content) := by
  constructor
  · exact format_vtt_valid segs h
  · intro w1 w2
    by_cases hne : segs = []
    · subst hne
      rfl
    · rw [export_script_vtt_ok segs w1 hne _ (format_vtt_valid segs h),
        export_script_vtt_ok segs w2 hne _ (format_vtt_valid segs h)]
      rfl

/-- C2 witness at the single segment ("00:30", "Hello world") and reading
speeds 100 and 250. -/
theorem C2_vtt_cue_structure_witness :
    format_vtt [⟨"00:30".toList, "Hello world".toList⟩] =
      .ok (format_vtt_spec [⟨"00:30".toList, "Hello world".toList⟩]) ∧
    (export_script ⟨[⟨"00:30".toList, "Hello world".toList⟩], "vtt".toList, 100⟩).map
        (fun r => r.content) =
      (export_script ⟨[⟨"00:30".toList, "Hello world".toList⟩], "vtt".toList, 250⟩).map
        (fun r => r.content) := by
  have h := C2_vtt_cue_structure [⟨"00:30".toList, "Hello world".toList⟩] (by decide)
  exact ⟨h.1, h.2 100 250⟩

/-- C6: whenever export_script returns a response for a non-empty segment
list with a reading speed in 100..250, its estimated_duration_seconds is
(total word count across all segments / reading_speed_wpm) * 60, computed
with the caller-configured reading speed. -/
theorem C6_estimated_duration (segs : List ScriptSegment) (fmt : Str) (wpm : Nat)
    (resp : ExportScriptResponse) (_hne : segs ≠ []) (_hlo : 100 ≤ wpm)
    (_hhi : wpm ≤ 250) (hok : export_script ⟨segs, fmt, wpm⟩ = .ok resp) :
    resp.estimated_duration_seconds =
      (((segs.map (fun s => wordCount s.narration)).sum : ℚ) / (wpm : ℚ)) * 60 :=
  export_script_ok_estimate segs fmt wpm resp hok

/-- C6 witness: the single segment ("00:30", "Hello world") at 150 wpm
yields estimated_duration_seconds (2/150)*60 = 0.8 = 4/5. -/
theorem C6_estimated_duration_witness :
    (export_script ⟨[⟨"00:30".toList, "Hello world".toList⟩],
        "teleprompter".toList, 150⟩).map (fun r => r.estimated_duration_seconds) =
      .ok ((4 : ℚ) / 5) := by
  have hok := export_script_teleprompter_ok
    [⟨"00:30".toList, "Hello world".toList⟩] 150 (by decide)
  have h := C6_estimated_duration [⟨"00:30".toList, "Hello world".toList⟩]
    ("teleprompter".toList) 150 _ (by decide) (by norm_num) (by norm_num) hok
  rw [hok]
  simp only [Except.map]
  rw [show ((List.map (fun s => wordCount s.narration)
    [(⟨"00:30".toList, "Hello world".toList⟩ : ScriptSegment)]).sum) = 2 from by decide]
  norm_num


/-- C10: a time-code string with no colon is not rejected as a parse
error: both time_to_seconds and the inline split in format_srt_chapters
take the hours-present branch and read a second field that does not exist,
raising IndexError (the out-of-bounds branch is reachable from the public
interface); for inputs with two or more integer fields both functions are
total (they return a value). -/
theorem C10_no_colon_out_of_bounds (s title : Str) (desc : Option Str) :
    ((':' ∉ s) → ∀ a : ℤ, int_of_str s = some a →
      time_to_seconds s = .error .indexError ∧
      format_srt_chapters [⟨s, title, desc⟩] = .error .indexError) ∧
    ((pySplit ':' s).length ≥ 2 →
      (∀ p ∈ (pySplit ':' s).take 3, int_of_str p ≠ none) →
      (time_to_seconds s).isOk = true ∧
      (format_srt_chapters [⟨s, title, desc⟩]).isOk = true) := by
  constructor
  · intro hcol a ha
    have hs : pySplit ':' s = [s] := pySplit_not_mem ':' s hcol
    exact ⟨time_to_seconds_one s s a hs ha,
      format_srt_single_err ⟨s, title, desc⟩ .indexError
        (srtChapterLines_single_part 0 _ s hs)⟩
  · intro hlen hint
    cases hsp : pySplit ':' s with
    | nil => exact absurd hsp (pySplit_ne_nil ':' s)
    | cons p rest1 =>
      cases rest1 with
      | nil =>
        rw [hsp] at hlen
        simp at hlen
      | cons q rest2 =>
        cases rest2 with
        | nil =>
          rw [hsp] at hint
          obtain ⟨a, ha⟩ := Option.ne_none_iff_exists'.mp (hint p (by simp))
          obtain ⟨b, hb⟩ := Option.ne_none_iff_exists'.mp (hint q (by simp))
          constructor
          · rw [time_to_seconds_two s p q a b hsp ha hb]
            rfl
          · obtain ⟨bb, hbb⟩ := except_isOk_exists _
              (srtChapterLines_two_parts 0 ⟨s, title, desc⟩ p q hsp)
            rw [format_srt_single _ bb hbb]
            rfl
        | cons r rest3 =>
          rw [hsp] at hint
          obtain ⟨a, ha⟩ := Option.ne_none_iff_exists'.mp (hint p (by simp))
          obtain ⟨b, hb⟩ := Option.ne_none_iff_exists'.mp (hint q (by simp))
          obtain ⟨c, hc⟩ := Option.ne_none_iff_exists'.mp (hint r (by simp))
          constructor
          · rw [time_to_seconds_three s p q r rest3 a b c hsp ha hb hc]
            rfl
          · obtain ⟨bb, hbb⟩ := except_isOk_exists _
              (srtChapterLines_three_parts 0 ⟨s, title, desc⟩ p q r rest3 hsp)
            rw [format_srt_single _ bb hbb]
            rfl

/-- C10 witness: the no-colon integer code "42" hits IndexError in both
functions, and the 2-integer-field code "01:30" is handled totally. -/
theorem C10_no_colon_out_of_bounds_witness :
    (time_to_seconds ("42".toList) = .error .indexError ∧
      format_srt_chapters [⟨"42".toList, "T".toList, none⟩] = .error .indexError) ∧
    ((time_to_seconds ("01:30".toList)).isOk = true ∧
      (format_srt_chapters [⟨"01:30".toList, "T".toList, none⟩]).isOk = true) :=
  ⟨(C10_no_colon_out_of_bounds ("42".toList) ("T".toList) none).1 (by decide) 42
      (by decide),
    (C10_no_colon_out_of_bounds ("01:30".toList) ("T".toList) none).2 (by decide)
      (by decide)⟩

/-- C4 counterexample: the claim says the SRT script export equals the
WebVTT export with the "WEBVTT\n\n" header stripped and '.' replaced by
',' — but the code replaces EVERY occurrence of "WEBVTT\n\n", so for the
segments [("0:0","WEBVTT"), ("0:0","x")], whose first narration line
followed by the blank separator forms another "WEBVTT\n\n" occurrence, the
actual SRT content differs from the header-stripped-then-comma form. -/
theorem C4_counterexample :
    (export_script ⟨[⟨"0:0".toList, "WEBVTT".toList⟩, ⟨"0:0".toList, "x".toList⟩],
        "srt".toList, 150⟩).map (fun r => r.content) ≠
      ((format_vtt [⟨"0:0".toList, "WEBVTT".toList⟩,
          ⟨"0:0".toList, "x".toList⟩]).mapError ApiError.py).map
        (fun v => pyReplace ".".toList ",".toList (strip_header v)) := by
  have hvtt := format_vtt_valid
    [⟨"0:0".toList, "WEBVTT".toList⟩, ⟨"0:0".toList, "x".toList⟩] (by decide)
  rw [export_script_srt_ok _ 150 (by decide) _ hvtt, hvtt]
  decide

/-- C4 (amended): the SRT script export equals the WebVTT export with
every occurrence of "WEBVTT\n\n" removed and then every '.' replaced by
','; when "WEBVTT\n\n" does not occur in the body after the header (the
common case, violated only by narrations containing "WEBVTT\n\n" or
ending in "WEBVTT" before the blank separator), this is exactly the
header-stripped, comma-converted VTT document — so a literal period in a
narration (e.g. "Mr. Smith") is rendered as a comma. -/
theorem C4_srt_is_header_stripped_vtt (segs : List ScriptSegment) (wpm : Nat)
    (v : Str) (hne : segs ≠ []) (hv : format_vtt segs = .ok v)
    (hbody : hasSub "WEBVTT\n\n".toList (strip_header v) = false) :
    (export_script ⟨segs, "srt".toList, wpm⟩).map (fun r => r.content) =
      .ok (pyReplace ".".toList ",".toList (strip_header v)) := by
  rw [export_script_srt_ok segs wpm hne v hv]
  simp only [Except.map]
  have hrepl : pyReplace "WEBVTT\n\n".toList [] v = strip_header v := by
    conv_lhs => rw [format_vtt_header segs v hne hv]
    rw [pyReplace_pat_head _ _ _ (by decide)]
    rw [pyReplace_not_sub _ _ _ hbody]
    rfl
  rw [hrepl]

/-- C4 amended witness: the single segment ("00:30", "Mr. Smith") — whose
narration contains a literal period — satisfies the hypotheses, and the
resulting SRT content is the header-stripped VTT with '.' turned into ','
(so "Mr. Smith" is rendered "Mr, Smith"). -/
theorem C4_srt_is_header_stripped_vtt_witness :
    (export_script ⟨[⟨"00:30".toList, "Mr. Smith".toList⟩], "srt".toList, 150⟩).map
        (fun r => r.content) =
      .ok (pyReplace ".".toList ",".toList
        (strip_header (format_vtt_spec [⟨"00:30".toList, "Mr. Smith".toList⟩]))) ∧
    pyReplace ".".toList ",".toList
        (strip_header (format_vtt_spec [⟨"00:30".toList, "Mr. Smith".toList⟩])) =
      "1\n00:00:30,000 --> 00:00:30,000\nMr, Smith\n".toList := by
  constructor
  · exact C4_srt_is_header_stripped_vtt [⟨"00:30".toList, "Mr. Smith".toList⟩] 150
      (format_vtt_spec [⟨"00:30".toList, "Mr. Smith".toList⟩]) (by decide)
      (format_vtt_valid [⟨"00:30".toList, "Mr. Smith".toList⟩] (by decide))
      (by decide)
  · decide
